import Mathlib

/-!
# CleanTasks recurring-task reset engine: a shallow embedding

This file embeds the recurrence evaluator of the CleanTasks repository
(`checkAndResetTasks` in `src/App.tsx` and in the two extracted variants
`src/unnamed/part_000` and `src/unnamed/part_001`, plus the `toggleTask`
mutator) and proves or refutes the specified properties.

Modelling conventions:
* A JavaScript `Date` instant is modelled as a natural number of
  milliseconds since the Unix epoch (the value of `Date.prototype.getTime`),
  with the local time zone taken to be UTC (offset 0).  Calendar fields
  (`getFullYear`, `getMonth`, `getDate`, `getDay`, `getHours`) are derived
  from that number with the standard civil-calendar conversion.
* ISO-8601 timestamp strings (`lastCompletedAt`, `toISOString`) are
  identified with the instant they denote.
* JavaScript subtraction of instants is modelled on `Int`, and
  `Math.floor` of a quotient of integers is `Int.fdiv`.
-/

namespace CleanTasks

/-! ## Calendar helpers (JavaScript `Date` semantics, UTC) -/

/-- Ceiling division on naturals, modelling `Math.ceil(a / b)` for
nonnegative integer `a` and positive integer `b`. -/
def ceilDiv (a b : Nat) : Nat := (a + b - 1) / b

/-- Convert a count of days since 1970-01-01 to `(year, month, day)` with
`month` 0-based as in JavaScript (`getMonth`) and `day` 1-based
(`getDate`).  Standard civil-from-days algorithm, valid for all `z ≥ 0`. -/
def civilFromDays (z : Nat) : Nat × Nat × Nat :=
  let days := z + 719468
  let era := days / 146097
  let doe := days % 146097
  let yoe := (doe - doe / 1460 + doe / 36524 - doe / 146096) / 365
  let y := yoe + era * 400
  let doy := doe - (365 * yoe + yoe / 4 - yoe / 100)
  let mp := (5 * doy + 2) / 153
  let d := doy - (153 * mp + 2) / 5 + 1
  let m := if mp < 10 then mp + 3 else mp - 9
  (if m ≤ 2 then y + 1 else y, m - 1, d)

/-- `Date.prototype.getFullYear` on an instant in milliseconds. -/
def getFullYear (t : Nat) : Nat := (civilFromDays (t / 86400000)).1

/-- `Date.prototype.getMonth` (0 = January). -/
def getMonth (t : Nat) : Nat := (civilFromDays (t / 86400000)).2.1

/-- `Date.prototype.getDate` (day of month, 1-based). -/
def getDate (t : Nat) : Nat := (civilFromDays (t / 86400000)).2.2

/-- `Date.prototype.getDay` (0 = Sunday).  1970-01-01 was a Thursday. -/
def getDay (t : Nat) : Nat := (t / 86400000 + 4) % 7

/-- `Date.prototype.getHours` (0–23). -/
def getHours (t : Nat) : Nat := t % 86400000 / 3600000

/-- Gregorian leap-year test. -/
def isLeapYear (y : Nat) : Bool := y % 4 == 0 && (y % 100 != 0 || y % 400 == 0)

/-- Number of days in a month (`month` 0-based), the value of
`new Date(year, month + 1, 0).getDate()`. -/
def daysInMonth (year month : Nat) : Nat :=
  if month = 1 then (if isLeapYear year then 29 else 28)
  else if month = 3 ∨ month = 5 ∨ month = 8 ∨ month = 10 then 30
  else 31

/-- Days from 0000-03-01 to the civil date `(y, m1, d)` with `m1` 1-based.
Standard days-from-civil algorithm; linear in `d`, so out-of-range day
numbers normalise exactly as the JavaScript `Date` constructor does. -/
def daysFromCivilO (y m1 d : Nat) : Nat :=
  let y' := if m1 ≤ 2 then y - 1 else y
  let era := y' / 400
  let yoe := y' % 400
  let doy := (153 * (if m1 > 2 then m1 - 3 else m1 + 9) + 2) / 5 + d - 1
  let doe := yoe * 365 + yoe / 4 - yoe / 100 + doy
  era * 146097 + doe

/-- Weekday (0 = Sunday) of the civil date `(y, m1, d)` with `m1` 1-based:
the value of `new Date(y, m1 - 1, d).getDay()`. -/
def weekdayOfYMD (y m1 d : Nat) : Nat := (daysFromCivilO y m1 d + 3) % 7

/-- Instant (milliseconds since epoch) of local midnight of `(y, m1, d)`,
`m1` 1-based: the value of `new Date(y, m1 - 1, d).getTime()` in UTC. -/
def msOfYMD (y m1 d : Nat) : Nat := (daysFromCivilO y m1 d - 719468) * 86400000

/-! ## String helpers (JavaScript string methods used by the dispatch) -/

/-- `listStarts p l` is true when `p` is an initial segment of `l`. -/
def listStarts : List Char → List Char → Bool
  | [], _ => true
  | _ :: _, [] => false
  | a :: as, b :: bs => a == b && listStarts as bs

/-- `String.prototype.startsWith`. -/
def strStarts (s p : String) : Bool := listStarts p.data s.data

/-- Suffix test, modelling a `$`-anchored regular-expression match. -/
def strEnds (s p : String) : Bool := listStarts p.data.reverse s.data.reverse

/-- `listHasSub sub l` is true when `sub` occurs contiguously in `l`. -/
def listHasSub (sub : List Char) : List Char → Bool
  | [] => sub.isEmpty
  | l@(_ :: tl) => listStarts sub l || listHasSub sub tl

/-- `String.prototype.includes`. -/
def strIncludes (s sub : String) : Bool := listHasSub sub.data s.data

/-- Longest Boolean-satisfying prefix of a character list. -/
def takeWhileList (p : Char → Bool) : List Char → List Char
  | [] => []
  | c :: cs => if p c then c :: takeWhileList p cs else []

/-- Model of `parseInt(time?.split(':')[0] || '9')`: `none` models `NaN`.
A missing `time`, or an empty first segment (falsy `''`), falls back to
the string `'9'`; `parseInt` reads the leading decimal digits and yields
`NaN` when there are none. -/
def parseTimeHour (time : Option String) : Option Nat :=
  let seg : List Char :=
    match time with
    | none => ['9']
    | some s =>
      let h := takeWhileList (fun c => c != ':') s.data
      if h.isEmpty then ['9'] else h
  let ds := takeWhileList Char.isDigit seg
  if ds.isEmpty then none
  else some (ds.foldl (fun n c => n * 10 + (c.toNat - 48)) 0)

/-! ## Data model -/

/-- The `schedule` object attached to a task (`type` is the recurrence
kind string; `time` an optional `"HH:MM"` string; `dayOfWeek` 0–6 with
Sunday 0; `dayOfMonth` 1–31). -/
structure Schedule where
  type : String
  time : Option String := none
  dayOfWeek : Option Nat := none
  dayOfMonth : Option Nat := none
  deriving DecidableEq, Repr

/-- A task as consumed by the evaluator.  `lastCompletedAt` is the parsed
instant of the stored ISO-8601 string. -/
structure Task where
  id : String
  text : String := ""
  completed : Bool
  priority : String := "medium"
  category : String := "Personal"
  createdAt : Nat := 0
  schedule : Option Schedule := none
  lastCompletedAt : Option Nat := none
  deriving DecidableEq, Repr

/-- The `id` fields of `SCHEDULE_PRESETS` in `src/App.tsx`: the catalog of
recurrence kinds offered by the application. -/
def schedulePresetIds : List String :=
  ["none", "daily", "weekdays", "weekends",
   "weekly_sunday", "weekly_monday", "weekly_tuesday", "weekly_wednesday",
   "weekly_thursday", "weekly_friday", "weekly_saturday",
   "biweekly", "biweekly_even", "biweekly_odd",
   "monthly", "monthly_15", "monthly_last",
   "first_sunday", "first_monday", "first_tuesday", "first_wednesday",
   "first_thursday", "first_friday", "first_saturday",
   "second_sunday", "second_monday", "second_tuesday", "second_wednesday",
   "second_thursday", "second_friday", "second_saturday",
   "third_friday", "last_sunday", "last_monday", "last_friday",
   "quarterly", "yearly"]

/-! ## `src/App.tsx` — `checkAndResetTasks` (lines 140–292)

The per-kind decisions are factored into named predicates; each body is
the literal translation of the corresponding branch.  Expressions of the
form `a - b + 7` on naturals are written `a + 7 - b` (equal in JavaScript,
where the intermediate value is never negative). -/

/-- Helper `getDayFromType` in `src/App.tsx`: extract the weekday encoded
at the end of a kind string (a `$`-anchored alternation over the seven
day names). -/
def getDayFromType (t : String) : Option Nat :=
  if strEnds t "sunday" then some 0
  else if strEnds t "monday" then some 1
  else if strEnds t "tuesday" then some 2
  else if strEnds t "wednesday" then some 3
  else if strEnds t "thursday" then some 4
  else if strEnds t "friday" then some 5
  else if strEnds t "saturday" then some 6
  else none

/-- Helper `getOccurrence` in `src/App.tsx`: which occurrence in the month
a kind string denotes (5 means "last"). -/
def getOccurrence (t : String) : Option Nat :=
  if strIncludes t "first" then some 1
  else if strIncludes t "second" then some 2
  else if strIncludes t "third" then some 3
  else if strIncludes t "fourth" then some 4
  else if strIncludes t "last" then some 5
  else none

/-- `daily` branch: reset when strictly more than 24 hours have elapsed. -/
def dailyReset (now last : Nat) : Bool :=
  decide ((now : Int) - (last : Int) > 24 * 60 * 60 * 1000)

/-- `weekdays` / `weekends` branches: active only when today's weekday is
in the class; reset when today's weekday differs from the weekday of the
last completion. -/
def dayClassReset (today lastDay : Nat) (lo hi : Nat) : Bool :=
  if lo ≤ today ∧ today ≤ hi then decide (today ≠ lastDay) else false

/-- `weekly_<day>` branch of `src/App.tsx` (lines 195–201): reset when we
are past the target weekday, or on it with the current hour at or past
the configured threshold (`NaN` threshold compares false). -/
def weeklyNamedReset (today hours targetDay : Nat) (time : Option String) : Bool :=
  let daysSinceSchedule := (today + 7 - targetDay) % 7
  decide (daysSinceSchedule > 0) ||
    (daysSinceSchedule == 0 &&
      (match parseTimeHour time with
       | some h => decide (hours ≥ h)
       | none => false))

/-- `biweekly` branch of `src/App.tsx` (lines 204–208):
`Math.floor(Math.floor((now - last) / day) / 7) >= 2`. -/
def biweeklyB (now last : Nat) : Bool :=
  let daysSince := ((now : Int) - (last : Int)).fdiv (24 * 60 * 60 * 1000)
  let weeksSince := daysSince.fdiv 7
  decide (weeksSince ≥ 2)

/-- `biweekly_even` / `biweekly_odd` branch of `src/App.tsx`
(lines 210–219): compare the parity of the (ceiling) week-of-year numbers
of `now` and of the last completion. -/
def biweeklyParityReset (now last year lastYear : Nat) (even : Bool) : Bool :=
  let currentWeek := ceilDiv (now - msOfYMD year 1 1) (7 * 24 * 60 * 60 * 1000)
  let lastWeek := ceilDiv (last - msOfYMD lastYear 1 1) (7 * 24 * 60 * 60 * 1000)
  if even then currentWeek % 2 == 0 && !(lastWeek % 2 == 0)
  else !(currentWeek % 2 == 0) && lastWeek % 2 == 0

/-- Nth-weekday-of-month branch of `src/App.tsx` (lines 236–275), for a
target weekday 0–6 and occurrence 1–4 or 5 (= "last").  The original also
guards `if (firstOccurrence < 1) firstOccurrence += 7`, which is kept
although the computed value is always at least 1. -/
def nthWeekdayReset (year month date lastYear lastMonth lastDate targetDay occurrence : Nat) :
    Bool :=
  let firstDayW := weekdayOfYMD year (month + 1) 1
  let dim := daysInMonth year month
  let firstOccurrence0 := (7 - firstDayW + targetDay) % 7 + 1
  let firstOccurrence := if firstOccurrence0 < 1 then firstOccurrence0 + 7 else firstOccurrence0
  let targetDate :=
    if occurrence == 5 then
      dim - ((weekdayOfYMD year (month + 1) dim + 7 - targetDay) % 7)
    else firstOccurrence + (occurrence - 1) * 7
  if targetDate ≤ date then
    if lastMonth != month || lastYear != year then true
    else
      let lastFirstOccurrence := (7 - weekdayOfYMD lastYear (lastMonth + 1) 1 + targetDay) % 7 + 1
      let lastTargetDate := lastFirstOccurrence + (occurrence - 1) * 7
      decide (lastDate < lastTargetDate)
  else false

/-- The per-task reset decision of `checkAndResetTasks` in `src/App.tsx`,
given the schedule and the parsed last-completion instant (both known to
be present at this point).  The local `weekNumber` of the original is
unused by the logic and omitted. -/
def shouldResetApp (now : Nat) (sch : Schedule) (last : Nat) : Bool :=
  let today := getDay now
  let date := getDate now
  let month := getMonth now
  let year := getFullYear now
  let t := sch.type
  if t == "daily" then dailyReset now last
  else if t == "weekdays" then dayClassReset today (getDay last) 1 5
  else if t == "weekends" then
    (if today = 0 ∨ today = 6 then decide (today ≠ getDay last) else false)
  else if strStarts t "weekly_" then
    (match getDayFromType t with
     | some targetDay => weeklyNamedReset today (getHours now) targetDay sch.time
     | none => false)
  else if t == "biweekly" || t == "biweekly_even" || t == "biweekly_odd" then
    (if t == "biweekly" then biweeklyB now last
     else biweeklyParityReset now last year (getFullYear last) (t == "biweekly_even"))
  else if t == "monthly" then decide (date = 1) && decide (getDate last ≠ 1)
  else if t == "monthly_15" then decide (date ≥ 15) && decide (getDate last < 15)
  else if t == "monthly_last" then decide (date ≥ daysInMonth year month - 2)
  else if strStarts t "first_" || strStarts t "second_" || strStarts t "third_" ||
      strStarts t "fourth_" || strStarts t "last_" then
    (match getDayFromType t, getOccurrence t with
     | some targetDay, some occurrence =>
       nthWeekdayReset year month date (getFullYear last) (getMonth last) (getDate last)
         targetDay occurrence
     | _, _ => false)
  else if t == "quarterly" then decide (month / 3 ≠ getMonth last / 3)
  else if t == "yearly" then decide (year ≠ getFullYear last)
  else false

/-- One step of the `taskList.map` in `checkAndResetTasks` (`src/App.tsx`):
guards for a missing or `none` schedule, an uncompleted task and a missing
`lastCompletedAt`, then the dispatch, then `{ ...task, completed: false }`
when the decision is positive. -/
def checkTaskApp (now : Nat) (task : Task) : Task :=
  match task.schedule with
  | none => task
  | some sch =>
    if sch.type == "none" then task
    else if !task.completed then task
    else
      match task.lastCompletedAt with
      | none => task
      | some last =>
        if shouldResetApp now sch last then { task with completed := false } else task

/-- `checkAndResetTasks` of `src/App.tsx`, with the implicit `new Date()`
made an explicit parameter. -/
def checkAndResetTasksApp (now : Nat) (taskList : List Task) : List Task :=
  taskList.map (checkTaskApp now)

/-! ## `src/unnamed/part_000` — `checkAndResetTasks` (lines 18–97)

The extracted scheduling-utilities variant.  `src/unnamed/part_001`
contains the same function inside the application component; its only
difference is that the weekly group matches the single case `'weekly'`
instead of `'weekly' | 'weekly_monday' | 'weekly_friday'`. -/

/-- `biweekly` branch of `part_000` / `part_001`:
`Math.floor((now - last) / (14 days)) >= 1`. -/
def biweeklyA (now last : Nat) : Bool :=
  let weeksSince := ((now : Int) - (last : Int)).fdiv (14 * 24 * 60 * 60 * 1000)
  decide (weeksSince ≥ 1)

/-- Legacy `weekly` branch of `part_000` / `part_001` (requires the
`dayOfWeek` field): reset when strictly past the target day, or on it
when `days*24 + (hour - threshold)` is strictly positive.  A `NaN`
threshold (unparseable `time`) makes the hour comparison false. -/
def weeklyLegacyReset (today hours dayOfWeek : Nat) (time : Option String) : Bool :=
  let daysSinceSchedule := (today + 7 - dayOfWeek) % 7
  let hoursSinceSchedule : Option Int :=
    match parseTimeHour time with
    | some h => some ((daysSinceSchedule * 24 : Int) + ((hours : Int) - (h : Int)))
    | none => none
  decide (daysSinceSchedule > 0) ||
    (daysSinceSchedule == 0 &&
      (match hoursSinceSchedule with
       | some v => decide (v > 0)
       | none => false))

/-- Legacy `monthly` branch of `part_000` / `part_001`, keyed on the
`dayOfMonth` field (`0` and absence are falsy and disable the rule). -/
def monthlyLegacyReset (year month date lastDate : Nat) (dayOfMonth : Option Nat) : Bool :=
  match dayOfMonth with
  | none => false
  | some n =>
    if n = 1 then decide (date = 1)
    else if n = 31 then
      let dim := daysInMonth year month
      (decide (dim ≥ 31) && decide (date ≥ 31)) ||
        (decide (date < lastDate) && decide (date ≥ dim - 2))
    else if n = 0 then false
    else decide (date ≥ n) && decide (lastDate < n)

/-- `second_friday` branch of `part_000` / `part_001`: compute the first
and second Friday of the current month and reset once past the second
Friday if the last completion predates the most recent of the two. -/
def secondFridayReset (now last year month : Nat) : Bool :=
  let firstFridayDay := (5 + 7 - weekdayOfYMD year (month + 1) 1) % 7 + 1
  let firstFriday := msOfYMD year (month + 1) firstFridayDay
  let secondFriday := msOfYMD year (month + 1) (firstFridayDay + 7)
  if now ≥ secondFriday then
    let lastResetWeek := if last ≥ firstFriday then secondFriday else firstFriday
    decide (last < lastResetWeek)
  else false

/-- The per-task reset decision of `checkAndResetTasks` in
`src/unnamed/part_000` (a `switch` on the kind; unknown kinds fall
through with `shouldReset = false`). -/
def shouldReset000 (now : Nat) (sch : Schedule) (last : Nat) : Bool :=
  let today := getDay now
  let date := getDate now
  let month := getMonth now
  let year := getFullYear now
  let t := sch.type
  if t == "daily" then dailyReset now last
  else if t == "weekly" || t == "weekly_monday" || t == "weekly_friday" then
    (match sch.dayOfWeek with
     | some dayOfWeek => weeklyLegacyReset today (getHours now) dayOfWeek sch.time
     | none => false)
  else if t == "biweekly" then biweeklyA now last
  else if t == "monthly" then monthlyLegacyReset year month date (getDate last) sch.dayOfMonth
  else if t == "second_friday" then secondFridayReset now last year month
  else if t == "weekdays" then dayClassReset today (getDay last) 1 5
  else if t == "weekends" then
    (if today = 0 ∨ today = 6 then decide (today ≠ getDay last) else false)
  else false

/-- One step of the `taskList.map` in `part_000`'s `checkAndResetTasks`. -/
def checkTask000 (now : Nat) (task : Task) : Task :=
  match task.schedule with
  | none => task
  | some sch =>
    if sch.type == "none" then task
    else if !task.completed then task
    else
      match task.lastCompletedAt with
      | none => task
      | some last =>
        if shouldReset000 now sch last then { task with completed := false } else task

/-- `checkAndResetTasks` of `src/unnamed/part_000`. -/
def checkAndResetTasks000 (now : Nat) (taskList : List Task) : List Task :=
  taskList.map (checkTask000 now)

/-- The per-task reset decision of `checkAndResetTasks` in
`src/unnamed/part_001` (lines 106–200): identical to `part_000` except
that only the exact kind `'weekly'` selects the weekly branch. -/
def shouldReset001 (now : Nat) (sch : Schedule) (last : Nat) : Bool :=
  let today := getDay now
  let date := getDate now
  let month := getMonth now
  let year := getFullYear now
  let t := sch.type
  if t == "daily" then dailyReset now last
  else if t == "weekly" then
    (match sch.dayOfWeek with
     | some dayOfWeek => weeklyLegacyReset today (getHours now) dayOfWeek sch.time
     | none => false)
  else if t == "biweekly" then biweeklyA now last
  else if t == "monthly" then monthlyLegacyReset year month date (getDate last) sch.dayOfMonth
  else if t == "second_friday" then secondFridayReset now last year month
  else if t == "weekdays" then dayClassReset today (getDay last) 1 5
  else if t == "weekends" then
    (if today = 0 ∨ today = 6 then decide (today ≠ getDay last) else false)
  else false

/-- One step of the `taskList.map` in `part_001`'s `checkAndResetTasks`. -/
def checkTask001 (now : Nat) (task : Task) : Task :=
  match task.schedule with
  | none => task
  | some sch =>
    if sch.type == "none" then task
    else if !task.completed then task
    else
      match task.lastCompletedAt with
      | none => task
      | some last =>
        if shouldReset001 now sch last then { task with completed := false } else task

/-- `checkAndResetTasks` of `src/unnamed/part_001`. -/
def checkAndResetTasks001 (now : Nat) (taskList : List Task) : List Task :=
  taskList.map (checkTask001 now)

/-! ## `toggleTask` (`src/App.tsx` lines 355–368, identical in
`src/unnamed/part_001` lines 247–260) -/

/-- `toggleTask`: flip `completed` on the task with the given id and set
`lastCompletedAt` to the current instant on the transition to completed,
to `undefined` otherwise (`new Date().toISOString()` is modelled by the
instant itself). -/
def toggleTask (now : Nat) (tasks : List Task) (id : String) : List Task :=
  tasks.map fun t =>
    if t.id == id then
      { t with
        completed := !t.completed,
        lastCompletedAt := if !t.completed then some now else none }
    else t

/-! ## Specification-side definitions

These follow the wording of the specification (§4.2 of `spec.md`) and are
compared against the source-derived predicates above. -/

/-- Modelled from the spec: the day-of-week rule "reset iff `delta > 0`,
OR (`delta == 0` AND current local hour ≥ configured threshold hour)". -/
def specWeeklyReset (today hours targetDay threshold : Nat) : Bool :=
  let delta := (today + 7 - targetDay) % 7
  decide (0 < delta) || (decide (delta = 0) && decide (threshold ≤ hours))

/-- The strict variant actually implemented by the legacy `weekly` branch:
on the target day the task resets only strictly after the threshold hour. -/
def strictWeeklyReset (today hours targetDay threshold : Nat) : Bool :=
  let delta := (today + 7 - targetDay) % 7
  decide (0 < delta) || (decide (delta = 0) && decide (threshold < hours))

/-- Modelled from the spec: the canonical biweekly rule "reset iff
`floor(elapsed_days / 7) >= 2`". -/
def specBiweekly (now last : Nat) : Bool :=
  decide (2 ≤ (now - last) / 86400000 / 7)

/-- Modelled from the spec: the date of the first occurrence of
`targetDay` in month `m` (0-based) of year `y`. -/
def specFirstWeekdayDate (y m targetDay : Nat) : Nat :=
  (targetDay + 7 - weekdayOfYMD y (m + 1) 1) % 7 + 1

/-- Walk backward from day `d` of month `m` to the nearest day whose
weekday is `targetDay` (0 when no match is found). -/
def specWalkBack (y m targetDay : Nat) : Nat → Nat
  | 0 => 0
  | d + 1 =>
    if weekdayOfYMD y (m + 1) (d + 1) = targetDay then d + 1
    else specWalkBack y m targetDay d

/-- Modelled from the spec: the `last` occurrence "computed by walking
backward from month-end to the nearest matching weekday". -/
def specLastWeekdayDate (y m targetDay : Nat) : Nat :=
  specWalkBack y m targetDay (daysInMonth y m)

/-- Modelled from the spec: the date of the Nth (or, for `occ = 5`, the
last) occurrence of `targetDay` in month `m` of year `y`. -/
def specNthOccurrenceDate (y m targetDay occ : Nat) : Nat :=
  if occ = 5 then specLastWeekdayDate y m targetDay
  else specFirstWeekdayDate y m targetDay + (occ - 1) * 7

/-- Modelled from the spec: the Nth-weekday-of-month rule "reset iff
today ≥ that date AND (last-completed month/year differs from current,
OR last-completed date < the Nth-occurrence date computed for its own
month)", with the last occurrence obtained by the backward walk. -/
def specNthReset (now last targetDay occ : Nat) : Bool :=
  let y := getFullYear now
  let m := getMonth now
  decide (specNthOccurrenceDate y m targetDay occ ≤ getDate now) &&
    (decide (getMonth last ≠ m ∨ getFullYear last ≠ y) ||
     decide (getDate last < specNthOccurrenceDate (getFullYear last) (getMonth last) targetDay occ))

/-- The Nth-weekday rule the code actually implements, on calendar
fields: as `specNthReset`, except that the occurrence date for the
last-completed month is always `firstOccurrence + (occ - 1) * 7`, even
for `occ = 5` (so for `last_*` kinds it is first occurrence plus 28). -/
def amendedNthFields (y m date ly lm ld targetDay occ : Nat) : Bool :=
  decide (specNthOccurrenceDate y m targetDay occ ≤ date) &&
    (decide (lm ≠ m ∨ ly ≠ y) ||
     decide (ld < specFirstWeekdayDate ly lm targetDay + (occ - 1) * 7))

/-- `amendedNthFields` applied to the calendar fields of two instants. -/
def amendedNthReset (now last targetDay occ : Nat) : Bool :=
  amendedNthFields (getFullYear now) (getMonth now) (getDate now)
    (getFullYear last) (getMonth last) (getDate last) targetDay occ

/-- The seven named weekly kinds of the catalog. -/
def weeklyNamedKinds : List String :=
  ["weekly_sunday", "weekly_monday", "weekly_tuesday", "weekly_wednesday",
   "weekly_thursday", "weekly_friday", "weekly_saturday"]

/-- The kind strings selecting the legacy weekly branch of `part_000`. -/
def legacyWeeklyKinds : List String := ["weekly", "weekly_monday", "weekly_friday"]

/-- All Nth-weekday-of-month kind strings handled by the `src/App.tsx`
dispatch (occurrences first–fourth and last, each weekday). -/
def nthWeekdayKinds : List String :=
  ["first_sunday", "first_monday", "first_tuesday", "first_wednesday",
   "first_thursday", "first_friday", "first_saturday",
   "second_sunday", "second_monday", "second_tuesday", "second_wednesday",
   "second_thursday", "second_friday", "second_saturday",
   "third_sunday", "third_monday", "third_tuesday", "third_wednesday",
   "third_thursday", "third_friday", "third_saturday",
   "fourth_sunday", "fourth_monday", "fourth_tuesday", "fourth_wednesday",
   "fourth_thursday", "fourth_friday", "fourth_saturday",
   "last_sunday", "last_monday", "last_tuesday", "last_wednesday",
   "last_thursday", "last_friday", "last_saturday"]

/-! ## Helper lemmas -/

theorem weekdayOfYMD_lt (y m1 d : Nat) : weekdayOfYMD y m1 d < 7 :=
  Nat.mod_lt _ (by omega)

/-- Stepping one day forward advances the day count by one (for `d ≥ 1`;
the formula is linear in the day). -/
theorem daysFromCivilO_succ (y m1 d : Nat) (hd : 1 ≤ d) :
    daysFromCivilO y m1 (d + 1) = daysFromCivilO y m1 d + 1 := by
  unfold daysFromCivilO
  dsimp only
  split <;> omega

/-- Stepping one day forward advances the weekday by one, modulo 7. -/
theorem weekdayOfYMD_succ (y m1 d : Nat) (hd : 1 ≤ d) :
    weekdayOfYMD y m1 (d + 1) = (weekdayOfYMD y m1 d + 1) % 7 := by
  unfold weekdayOfYMD
  rw [daysFromCivilO_succ y m1 d hd]
  omega

theorem daysInMonth_ge (y m : Nat) : 28 ≤ daysInMonth y m := by
  unfold daysInMonth
  split
  · split <;> omega
  · split <;> omega

/-- The backward walk lands exactly `(weekday(d) + 7 - t) % 7` days before
`d`, provided the walk cannot run off the front of the month. -/
theorem specWalkBack_eq (y m td : Nat) (htd : td ≤ 6) :
    ∀ k d, (weekdayOfYMD y (m + 1) d + 7 - td) % 7 = k → 1 ≤ d - k → k ≤ d →
      specWalkBack y m td d = d - k := by
  intro k
  induction k with
  | zero =>
    intro d hk hd1 hkd
    have hw := weekdayOfYMD_lt y (m + 1) d
    have heq : weekdayOfYMD y (m + 1) d = td := by omega
    cases d with
    | zero => omega
    | succ e =>
      unfold specWalkBack
      rw [if_pos heq]
      omega
  | succ k ih =>
    intro d hk hd1 hkd
    have hw := weekdayOfYMD_lt y (m + 1) d
    have hne : weekdayOfYMD y (m + 1) d ≠ td := by omega
    cases d with
    | zero => omega
    | succ e =>
      have he : 1 ≤ e := by omega
      have hstep := weekdayOfYMD_succ y (m + 1) e he
      have hwe := weekdayOfYMD_lt y (m + 1) e
      have hk' : (weekdayOfYMD y (m + 1) e + 7 - td) % 7 = k := by omega
      unfold specWalkBack
      rw [if_neg hne, ih e hk' (by omega) (by omega)]
      omega

/-- The spec's backward walk agrees with the closed-form expression used
by the code for the current month's `last` occurrence. -/
theorem specLastWeekdayDate_eq (y m td : Nat) (htd : td ≤ 6) :
    specLastWeekdayDate y m td =
      daysInMonth y m - ((weekdayOfYMD y (m + 1) (daysInMonth y m) + 7 - td) % 7) := by
  have hdim := daysInMonth_ge y m
  have hw := weekdayOfYMD_lt y (m + 1) (daysInMonth y m)
  exact specWalkBack_eq y m td htd _ (daysInMonth y m) rfl (by omega) (by omega)

/-- Core equivalence: the inline Nth-weekday computation of `src/App.tsx`
equals the field-level amended rule. -/
theorem nthWeekdayReset_eq_amended (y m date ly lm ld td oc : Nat) (htd : td ≤ 6) :
    nthWeekdayReset y m date ly lm ld td oc = amendedNthFields y m date ly lm ld td oc := by
  have hw1 := weekdayOfYMD_lt y (m + 1) 1
  have hwl := weekdayOfYMD_lt ly (lm + 1) 1
  have hwd := weekdayOfYMD_lt y (m + 1) (daysInMonth y m)
  have hdim := daysInMonth_ge y m
  simp only [nthWeekdayReset, amendedNthFields, specNthOccurrenceDate, specFirstWeekdayDate]
  rw [specLastWeekdayDate_eq y m td htd]
  have hfo2 : (7 - weekdayOfYMD y (m + 1) 1 + td) % 7 + 1 =
      (td + 7 - weekdayOfYMD y (m + 1) 1) % 7 + 1 := by omega
  have hlo : (7 - weekdayOfYMD ly (lm + 1) 1 + td) % 7 + 1 =
      (td + 7 - weekdayOfYMD ly (lm + 1) 1) % 7 + 1 := by omega
  simp only [hfo2, hlo]
  have hchain : ∀ (A : Prop) (inst : Decidable A) (c : Bool),
      (if A then (if (lm != m || ly != y) = true then true else c) else false) =
      (decide A && (decide (lm ≠ m ∨ ly ≠ y) || c)) := by
    intro A inst c
    by_cases hA : A <;> by_cases hm : lm = m <;> by_cases hy : ly = y <;>
      simp [hA, hm, hy]
  by_cases hocc : oc = 5
  · simp only [hocc, beq_self_eq_true, if_true, hchain]
  · simp only [hocc, beq_iff_eq, if_false, hchain]
    rw [if_neg (show ¬((td + 7 - weekdayOfYMD y (m + 1) 1) % 7 + 1 < 1) by omega)]

/-- The `src/App.tsx` dispatch sends each named weekly kind to the weekly
predicate with the weekday encoded in the kind name. -/
theorem shouldResetApp_weeklyNamed (k : String) (hk : k ∈ weeklyNamedKinds)
    (now last : Nat) (time : Option String) (dow dom : Option Nat) :
    shouldResetApp now ⟨k, time, dow, dom⟩ last =
      weeklyNamedReset (getDay now) (getHours now) ((getDayFromType k).getD 0) time := by
  fin_cases hk <;> rfl

/-- Generic reduction of the `src/App.tsx` dispatch to the Nth-weekday
branch, given the values of the branch conditions. -/
theorem shouldResetApp_nth_of (k : String) (now last : Nat) (time : Option String)
    (dow dom : Option Nat) (td oc : Nat)
    (h1 : (k == "daily") = false) (h2 : (k == "weekdays") = false)
    (h3 : (k == "weekends") = false) (h4 : strStarts k "weekly_" = false)
    (h5 : (k == "biweekly") = false) (h6 : (k == "biweekly_even") = false)
    (h7 : (k == "biweekly_odd") = false) (h8 : (k == "monthly") = false)
    (h9 : (k == "monthly_15") = false) (h10 : (k == "monthly_last") = false)
    (h11 : (strStarts k "first_" || strStarts k "second_" || strStarts k "third_" ||
      strStarts k "fourth_" || strStarts k "last_") = true)
    (h12 : getDayFromType k = some td) (h13 : getOccurrence k = some oc) :
    shouldResetApp now ⟨k, time, dow, dom⟩ last =
      nthWeekdayReset (getFullYear now) (getMonth now) (getDate now)
        (getFullYear last) (getMonth last) (getDate last) td oc := by
  unfold shouldResetApp
  simp only [h1, h2, h3, h4, h5, h6, h7, h8, h9, h10, h11, h12, h13,
    Bool.false_eq_true, if_false, Bool.or_false, Bool.false_or, if_true]

/-- The `src/App.tsx` dispatch sends each Nth-weekday kind to
`nthWeekdayReset` with the encoded weekday and occurrence. -/
theorem shouldResetApp_nth (k : String) (hk : k ∈ nthWeekdayKinds)
    (now last : Nat) (time : Option String) (dow dom : Option Nat) :
    shouldResetApp now ⟨k, time, dow, dom⟩ last =
      nthWeekdayReset (getFullYear now) (getMonth now) (getDate now)
        (getFullYear last) (getMonth last) (getDate last)
        ((getDayFromType k).getD 0) ((getOccurrence k).getD 0) := by
  fin_cases hk <;>
    exact shouldResetApp_nth_of _ _ _ _ _ _ _ _ (by decide) (by decide) (by decide)
      (by decide) (by decide) (by decide) (by decide) (by decide) (by decide)
      (by decide) (by decide) (by decide) (by decide)

/-- Each Nth-weekday kind encodes a weekday between 0 and 6. -/
theorem nthKinds_day_le (k : String) (hk : k ∈ nthWeekdayKinds) :
    (getDayFromType k).getD 0 ≤ 6 := by
  fin_cases hk <;> decide

/-- The `part_000` dispatch sends `weekly` and its two aliases, when the
`dayOfWeek` field is present, to the legacy weekly predicate. -/
theorem shouldReset000_weekly (k : String) (hk : k ∈ legacyWeeklyKinds)
    (now last : Nat) (time : Option String) (dw : Nat) (dom : Option Nat) :
    shouldReset000 now ⟨k, time, some dw, dom⟩ last =
      weeklyLegacyReset (getDay now) (getHours now) dw time := by
  fin_cases hk <;> rfl

/-- Generic reduction of the `src/App.tsx` dispatch to the `monthly`
branch, given the values of the earlier branch conditions. -/
theorem shouldResetApp_monthly_of (k : String) (now last : Nat) (time : Option String)
    (dow dom : Option Nat)
    (h1 : (k == "daily") = false) (h2 : (k == "weekdays") = false)
    (h3 : (k == "weekends") = false) (h4 : strStarts k "weekly_" = false)
    (h5 : (k == "biweekly") = false) (h6 : (k == "biweekly_even") = false)
    (h7 : (k == "biweekly_odd") = false) (h8 : (k == "monthly") = true) :
    shouldResetApp now ⟨k, time, dow, dom⟩ last =
      (decide (getDate now = 1) && decide (getDate last ≠ 1)) := by
  unfold shouldResetApp
  simp only [h1, h2, h3, h4, h5, h6, h7, h8,
    Bool.false_eq_true, if_false, Bool.or_false, Bool.false_or, if_true]

/-- Generic reduction of the `src/App.tsx` dispatch to the `quarterly`
branch, given the values of the earlier branch conditions. -/
theorem shouldResetApp_quarterly_of (k : String) (now last : Nat) (time : Option String)
    (dow dom : Option Nat)
    (h1 : (k == "daily") = false) (h2 : (k == "weekdays") = false)
    (h3 : (k == "weekends") = false) (h4 : strStarts k "weekly_" = false)
    (h5 : (k == "biweekly") = false) (h6 : (k == "biweekly_even") = false)
    (h7 : (k == "biweekly_odd") = false) (h8 : (k == "monthly") = false)
    (h9 : (k == "monthly_15") = false) (h10 : (k == "monthly_last") = false)
    (h11 : (strStarts k "first_" || strStarts k "second_" || strStarts k "third_" ||
      strStarts k "fourth_" || strStarts k "last_") = false)
    (h12 : (k == "quarterly") = true) :
    shouldResetApp now ⟨k, time, dow, dom⟩ last =
      decide (getMonth now / 3 ≠ getMonth last / 3) := by
  unfold shouldResetApp
  simp only [h1, h2, h3, h4, h5, h6, h7, h8, h9, h10, h11, h12,
    Bool.false_eq_true, if_false, Bool.or_false, Bool.false_or, if_true]

/-- Generic reduction of the `src/App.tsx` dispatch to its final `else`:
a kind matching no branch never resets. -/
theorem shouldResetApp_else_of (k : String) (now last : Nat) (time : Option String)
    (dow dom : Option Nat)
    (h1 : (k == "daily") = false) (h2 : (k == "weekdays") = false)
    (h3 : (k == "weekends") = false) (h4 : strStarts k "weekly_" = false)
    (h5 : (k == "biweekly") = false) (h6 : (k == "biweekly_even") = false)
    (h7 : (k == "biweekly_odd") = false) (h8 : (k == "monthly") = false)
    (h9 : (k == "monthly_15") = false) (h10 : (k == "monthly_last") = false)
    (h11 : (strStarts k "first_" || strStarts k "second_" || strStarts k "third_" ||
      strStarts k "fourth_" || strStarts k "last_") = false)
    (h12 : (k == "quarterly") = false) (h13 : (k == "yearly") = false) :
    shouldResetApp now ⟨k, time, dow, dom⟩ last = false := by
  unfold shouldResetApp
  simp only [h1, h2, h3, h4, h5, h6, h7, h8, h9, h10, h11, h12, h13,
    Bool.false_eq_true, if_false, Bool.or_false, Bool.false_or, if_true]

/-- Generic reduction of the `part_000` dispatch to the `monthly` branch. -/
theorem shouldReset000_monthly_of (k : String) (now last : Nat) (time : Option String)
    (dow dom : Option Nat)
    (h1 : (k == "daily") = false) (h2 : (k == "weekly") = false)
    (h3 : (k == "weekly_monday") = false) (h4 : (k == "weekly_friday") = false)
    (h5 : (k == "biweekly") = false) (h6 : (k == "monthly") = true) :
    shouldReset000 now ⟨k, time, dow, dom⟩ last =
      monthlyLegacyReset (getFullYear now) (getMonth now) (getDate now) (getDate last) dom := by
  unfold shouldReset000
  simp only [h1, h2, h3, h4, h5, h6,
    Bool.false_eq_true, if_false, Bool.or_false, Bool.false_or, if_true]

/-- Generic reduction of the `part_000` dispatch to its default case. -/
theorem shouldReset000_else_of (k : String) (now last : Nat) (time : Option String)
    (dow dom : Option Nat)
    (h1 : (k == "daily") = false) (h2 : (k == "weekly") = false)
    (h3 : (k == "weekly_monday") = false) (h4 : (k == "weekly_friday") = false)
    (h5 : (k == "biweekly") = false) (h6 : (k == "monthly") = false)
    (h7 : (k == "second_friday") = false) (h8 : (k == "weekdays") = false)
    (h9 : (k == "weekends") = false) :
    shouldReset000 now ⟨k, time, dow, dom⟩ last = false := by
  unfold shouldReset000
  simp only [h1, h2, h3, h4, h5, h6, h7, h8, h9,
    Bool.false_eq_true, if_false, Bool.or_false, Bool.false_or, if_true]

/-- Generic reduction of the `part_001` dispatch to its default case. -/
theorem shouldReset001_else_of (k : String) (now last : Nat) (time : Option String)
    (dow dom : Option Nat)
    (h1 : (k == "daily") = false) (h2 : (k == "weekly") = false)
    (h3 : (k == "biweekly") = false) (h4 : (k == "monthly") = false)
    (h5 : (k == "second_friday") = false) (h6 : (k == "weekdays") = false)
    (h7 : (k == "weekends") = false) :
    shouldReset001 now ⟨k, time, dow, dom⟩ last = false := by
  unfold shouldReset001
  simp only [h1, h2, h3, h4, h5, h6, h7,
    Bool.false_eq_true, if_false, Bool.or_false, Bool.false_or, if_true]

/-- With a parseable threshold, the named weekly predicate is exactly the
spec's rule (hour compared with `≥`). -/
theorem weeklyNamedReset_eq_spec (today hours td h : Nat) (time : Option String)
    (hpt : parseTimeHour time = some h) :
    weeklyNamedReset today hours td time = specWeeklyReset today hours td h := by
  unfold weeklyNamedReset specWeeklyReset
  rw [hpt]
  by_cases hd : (today + 7 - td) % 7 = 0
  · simp [hd]
  · simp [hd, Nat.pos_of_ne_zero hd]

/-- With a parseable threshold, the legacy weekly predicate is the strict
variant (hour compared with `>`). -/
theorem weeklyLegacyReset_eq_strict (today hours dw h : Nat) (time : Option String)
    (hpt : parseTimeHour time = some h) :
    weeklyLegacyReset today hours dw time = strictWeeklyReset today hours dw h := by
  unfold weeklyLegacyReset strictWeeklyReset
  rw [hpt]
  by_cases hd : (today + 7 - dw) % 7 = 0
  · simp [hd, decide_eq_decide]
  · simp [hd, Nat.pos_of_ne_zero hd]

/-- Each evaluator step returns the task unchanged or with only the
`completed` field cleared. -/
theorem checkTaskApp_eq_or (now : Nat) (t : Task) :
    checkTaskApp now t = t ∨ checkTaskApp now t = { t with completed := false } := by
  unfold checkTaskApp
  repeat' first
    | exact Or.inl rfl
    | exact Or.inr rfl
    | split

/-- As `checkTaskApp_eq_or`, for the `part_000` variant. -/
theorem checkTask000_eq_or (now : Nat) (t : Task) :
    checkTask000 now t = t ∨ checkTask000 now t = { t with completed := false } := by
  unfold checkTask000
  repeat' first
    | exact Or.inl rfl
    | exact Or.inr rfl
    | split

/-- An uncompleted task is never touched by the evaluator step. -/
theorem checkTaskApp_not_completed (now : Nat) (t : Task) (h : t.completed = false) :
    checkTaskApp now t = t := by
  unfold checkTaskApp
  split
  · rfl
  · split
    · rfl
    · split
      · rfl
      · simp_all

/-- One evaluator step is idempotent at a fixed instant. -/
theorem checkTaskApp_idem (now : Nat) (t : Task) :
    checkTaskApp now (checkTaskApp now t) = checkTaskApp now t := by
  rcases checkTaskApp_eq_or now t with h | h
  · rw [h]
    exact h
  · rw [h]
    exact checkTaskApp_not_completed now _ rfl

/-- As `checkTaskApp_not_completed`, for the `part_000` variant. -/
theorem checkTask000_not_completed (now : Nat) (t : Task) (h : t.completed = false) :
    checkTask000 now t = t := by
  unfold checkTask000
  split
  · rfl
  · split
    · rfl
    · split
      · rfl
      · simp_all

/-- As `checkTaskApp_not_completed`, for the `part_001` variant. -/
theorem checkTask001_not_completed (now : Nat) (t : Task) (h : t.completed = false) :
    checkTask001 now t = t := by
  unfold checkTask001
  split
  · rfl
  · split
    · rfl
    · split
      · rfl
      · simp_all

/-- A task with no schedule or no recorded completion is never touched. -/
theorem checkTaskApp_no_data (now : Nat) (t : Task)
    (h : t.schedule = none ∨ t.lastCompletedAt = none) : checkTaskApp now t = t := by
  rcases h with h | h
  · unfold checkTaskApp
    simp [h]
  · unfold checkTaskApp
    rcases hsch : t.schedule with _ | sch
    · rfl
    · split
      · rfl
      · split
        · rfl
        · simp [h]

/-- As `checkTaskApp_no_data`, for the `part_000` variant. -/
theorem checkTask000_no_data (now : Nat) (t : Task)
    (h : t.schedule = none ∨ t.lastCompletedAt = none) : checkTask000 now t = t := by
  rcases h with h | h
  · unfold checkTask000
    simp [h]
  · unfold checkTask000
    rcases hsch : t.schedule with _ | sch
    · rfl
    · split
      · rfl
      · split
        · rfl
        · simp [h]

/-- As `checkTaskApp_no_data`, for the `part_001` variant. -/
theorem checkTask001_no_data (now : Nat) (t : Task)
    (h : t.schedule = none ∨ t.lastCompletedAt = none) : checkTask001 now t = t := by
  rcases h with h | h
  · unfold checkTask001
    simp [h]
  · unfold checkTask001
    rcases hsch : t.schedule with _ | sch
    · rfl
    · split
      · rfl
      · split
        · rfl
        · simp [h]

/-- Over restricted subtraction, the `part_000` biweekly predicate counts
14-day blocks: it fires exactly at 14 elapsed days. -/
theorem biweeklyA_iff (now last : Nat) (h : last ≤ now) :
    biweeklyA now last = decide (14 * 86400000 ≤ now - last) := by
  unfold biweeklyA
  rw [decide_eq_decide]
  have hc : (now : Int) - (last : Int) = ((now - last : Nat) : Int) := by omega
  rw [hc, Int.fdiv_eq_tdiv (Int.ofNat_nonneg _),
    show ((14 * 24 * 60 * 60 * 1000 : Int)) = ((1209600000 : Nat) : Int) by norm_num,
    ← Int.ofNat_tdiv]
  norm_cast
  rw [Nat.le_div_iff_mul_le (by norm_num)]
  omega

/-- The `src/App.tsx` biweekly predicate also fires exactly at 14 elapsed
days. -/
theorem biweeklyB_iff (now last : Nat) (h : last ≤ now) :
    biweeklyB now last = decide (14 * 86400000 ≤ now - last) := by
  unfold biweeklyB
  rw [decide_eq_decide]
  have hc : (now : Int) - (last : Int) = ((now - last : Nat) : Int) := by omega
  rw [hc, Int.fdiv_eq_tdiv (Int.ofNat_nonneg _),
    show ((24 * 60 * 60 * 1000 : Int)) = ((86400000 : Nat) : Int) by norm_num,
    ← Int.ofNat_tdiv, Int.fdiv_eq_tdiv (Int.ofNat_nonneg _),
    show ((7 : Int)) = ((7 : Nat) : Int) by norm_num, ← Int.ofNat_tdiv]
  norm_cast
  rw [Nat.div_div_eq_div_mul, Nat.le_div_iff_mul_le (by norm_num)]
  omega
  norm_num

/-! ## The claims -/

/-- C4: the two sampled biweekly implementations — `part_000`'s
`floor((now - last) / 14 days) ≥ 1` and `App.tsx`'s
`floor(floor((now - last) / 1 day) / 7) ≥ 2` — are equal as predicates
whenever `now ≥ last`, and both are equivalent to the canonical rule
`floor(elapsed_days / 7) ≥ 2`, i.e. at least 14 full elapsed days. -/
theorem C4_biweekly_variants_agree (now last : Nat) (h : last ≤ now) :
    biweeklyA now last = biweeklyB now last ∧
    biweeklyA now last = specBiweekly now last ∧
    biweeklyA now last = decide (14 * 86400000 ≤ now - last) := by
  have ha := biweeklyA_iff now last h
  have hb := biweeklyB_iff now last h
  refine ⟨ha.trans hb.symm, ha.trans ?_, ha⟩
  unfold specBiweekly
  rw [decide_eq_decide, Nat.div_div_eq_div_mul, Nat.le_div_iff_mul_le (by norm_num)]

/-- Witness for C4 at 14 days and at one millisecond less. -/
theorem C4_witness :
    biweeklyA (14 * 86400000) 0 = biweeklyB (14 * 86400000) 0 ∧
    biweeklyA (14 * 86400000) 0 = specBiweekly (14 * 86400000) 0 ∧
    biweeklyA (14 * 86400000) 0 = decide (14 * 86400000 ≤ 14 * 86400000 - 0) :=
  C4_biweekly_variants_agree (14 * 86400000) 0 (by omega)

/-- C6: evaluation is idempotent at a fixed instant:
`evaluate(evaluate(L, t), t) = evaluate(L, t)` for every list `L` and
instant `t` (for the `src/App.tsx` evaluator). -/
theorem C6_evaluate_idempotent (now : Nat) (L : List Task) :
    checkAndResetTasksApp now (checkAndResetTasksApp now L) =
      checkAndResetTasksApp now L := by
  unfold checkAndResetTasksApp
  induction L with
  | nil => rfl
  | cons a l ih =>
    simp only [List.map_cons]
    rw [checkTaskApp_idem now a]
    exact congrArg _ ih

/-- C7: for every input list and instant the output of the evaluator has
the same length and order as the input, and each output task is either
its input task verbatim or that task with only `completed` set to false
(all other fields, including `lastCompletedAt`, preserved) — for both the
`src/App.tsx` and the `part_000` evaluators. -/
theorem C7_order_and_frame (now : Nat) (L : List Task) :
    ((checkAndResetTasksApp now L).length = L.length ∧
      List.Forall₂ (fun a b => b = a ∨ b = { a with completed := false }) L
        (checkAndResetTasksApp now L)) ∧
    ((checkAndResetTasks000 now L).length = L.length ∧
      List.Forall₂ (fun a b => b = a ∨ b = { a with completed := false }) L
        (checkAndResetTasks000 now L)) := by
  refine ⟨⟨List.length_map L _, ?_⟩, ⟨List.length_map L _, ?_⟩⟩
  · unfold checkAndResetTasksApp
    rw [List.forall₂_map_right_iff, List.forall₂_same]
    intro x _
    exact checkTaskApp_eq_or now x
  · unfold checkAndResetTasks000
    rw [List.forall₂_map_right_iff, List.forall₂_same]
    intro x _
    exact checkTask000_eq_or now x

/-- C9: for the named weekly kinds the reset decision does not depend on
the value of `lastCompletedAt`: evaluations at the same instant that
differ only in the last-completion instant decide identically (in
`src/App.tsx` for `weekly_sunday` … `weekly_saturday`, and in `part_000`
for the legacy weekly group); moreover, with a parseable threshold the
`App.tsx` decision equals the day/hour formula, so a task completed
moments earlier is still reset once past the target day or, on it, at or
past the threshold hour. -/
theorem C9_weekly_ignores_last (k : String) (now : Nat) (time : Option String)
    (dow dom : Option Nat) (l1 l2 : Nat) :
    (k ∈ weeklyNamedKinds →
      shouldResetApp now ⟨k, time, dow, dom⟩ l1 =
        shouldResetApp now ⟨k, time, dow, dom⟩ l2) ∧
    (k ∈ legacyWeeklyKinds → ∀ dw : Nat,
      shouldReset000 now ⟨k, time, some dw, dom⟩ l1 =
        shouldReset000 now ⟨k, time, some dw, dom⟩ l2) ∧
    (k ∈ weeklyNamedKinds → ∀ h : Nat, parseTimeHour time = some h →
      shouldResetApp now ⟨k, time, dow, dom⟩ l1 =
        specWeeklyReset (getDay now) (getHours now) ((getDayFromType k).getD 0) h) := by
  refine ⟨?_, ?_, ?_⟩
  · intro hk
    rw [shouldResetApp_weeklyNamed k hk now l1 time dow dom,
      shouldResetApp_weeklyNamed k hk now l2 time dow dom]
  · intro hk dw
    rw [shouldReset000_weekly k hk now l1 time dw dom,
      shouldReset000_weekly k hk now l2 time dw dom]
  · intro hk h hpt
    rw [shouldResetApp_weeklyNamed k hk now l1 time dow dom,
      weeklyNamedReset_eq_spec _ _ _ _ _ hpt]

/-- Witness for C9: `weekly_friday` decides identically for two different
last-completion instants, in both samples. -/
theorem C9_witness :
    shouldResetApp (20266 * 86400000) ⟨"weekly_friday", none, none, none⟩ 100 =
      shouldResetApp (20266 * 86400000) ⟨"weekly_friday", none, none, none⟩ 200 ∧
    shouldReset000 (20266 * 86400000) ⟨"weekly_friday", none, some 5, none⟩ 100 =
      shouldReset000 (20266 * 86400000) ⟨"weekly_friday", none, some 5, none⟩ 200 :=
  ⟨(C9_weekly_ignores_last "weekly_friday" (20266 * 86400000) none none none 100 200).1
      (by decide),
   (C9_weekly_ignores_last "weekly_friday" (20266 * 86400000) none none none 100 200).2.1
      (by decide) 5⟩

/-- C10: a completed `quarterly` task is never reset while `now` and the
last completion have months in the same quarter-of-year
(`floor(month / 3)` equal) — even across calendar years. -/
theorem C10_quarterly_same_quarter (now last : Nat) (time : Option String)
    (dow dom : Option Nat) (t : Task)
    (hq : getMonth now / 3 = getMonth last / 3)
    (hs : t.schedule = some ⟨"quarterly", time, dow, dom⟩)
    (hl : t.lastCompletedAt = some last) :
    shouldResetApp now ⟨"quarterly", time, dow, dom⟩ last = false ∧
    checkTaskApp now t = t := by
  have hsr : shouldResetApp now ⟨"quarterly", time, dow, dom⟩ last =
      decide (getMonth now / 3 ≠ getMonth last / 3) :=
    shouldResetApp_quarterly_of "quarterly" now last time dow dom (by decide) (by decide)
      (by decide) (by decide) (by decide) (by decide) (by decide) (by decide) (by decide)
      (by decide) (by decide) (by decide)
  have hfalse : shouldResetApp now ⟨"quarterly", time, dow, dom⟩ last = false := by
    rw [hsr]
    simp [hq]
  refine ⟨hfalse, ?_⟩
  unfold checkTaskApp
  simp only [hs, hl]
  rw [if_neg (by decide)]
  split
  · rfl
  · rw [if_neg (by simp [hfalse])]

/-- Witness for C10: last completed 2024-02-01 (Q1 2024), evaluated
2025-01-15 (Q1 2025): same quarter index, different year, no reset. -/
theorem C10_witness :
    getFullYear (20103 * 86400000) = 2025 ∧ getFullYear (19754 * 86400000) = 2024 ∧
    getMonth (20103 * 86400000) = 0 ∧ getMonth (19754 * 86400000) = 1 ∧
    checkTaskApp (20103 * 86400000)
        { id := "q", completed := true,
          schedule := some ⟨"quarterly", none, none, none⟩,
          lastCompletedAt := some (19754 * 86400000) } =
      { id := "q", completed := true,
        schedule := some ⟨"quarterly", none, none, none⟩,
        lastCompletedAt := some (19754 * 86400000) } :=
  ⟨by decide, by decide, by decide, by decide,
   (C10_quarterly_same_quarter (20103 * 86400000) (19754 * 86400000) none none none _
      (by decide) rfl rfl).2⟩

/-- Concrete input for the monthly-on-the-1st scenario: `now` is
2025-03-01 and the last completion 2025-02-01, both midnight UTC. -/
def c1now : Nat := 20148 * 86400000

/-- Last completion for the C1 scenario: 2025-02-01. -/
def c1last : Nat := 20120 * 86400000

/-- A completed `monthly` (day 1) task last completed on `c1last`. -/
def c1task : Task :=
  { id := "m", completed := true,
    schedule := some { type := "monthly", dayOfMonth := some 1 },
    lastCompletedAt := some c1last }

/-- C1 counterexample: with `now` the 1st of March 2025 and the last
completion on the 1st of February 2025, the `src/App.tsx` evaluator
returns the task unchanged — it does not clear the completed flag,
because the guard `last-completed date ≠ 1` fails. -/
theorem C1_counterexample :
    getDate c1now = 1 ∧ getMonth c1now = 2 ∧ getFullYear c1now = 2025 ∧
    getDate c1last = 1 ∧ getMonth c1last = 1 ∧ getFullYear c1last = 2025 ∧
    c1task.completed = true ∧
    checkAndResetTasksApp c1now [c1task] = [c1task] := by decide

/-- C1 (amended): for a completed `monthly` task with `lastCompletedAt`
present, when both `now` and the last completion fall on the 1st day of a
month, the `src/App.tsx` evaluator leaves the task unchanged (its
cross-month guard requires the last-completed day-of-month to differ from
1), while the `part_000` variant with `dayOfMonth = 1`, which tests only
today's date, does clear the completed flag. -/
theorem C1_monthly_first_guard (now last : Nat) (t : Task) (sch : Schedule)
    (hs : t.schedule = some sch) (ht : sch.type = "monthly")
    (hl : t.lastCompletedAt = some last)
    (hnow : getDate now = 1) (hlast : getDate last = 1) :
    checkTaskApp now t = t ∧
    (sch.dayOfMonth = some 1 → t.completed = true →
      checkTask000 now t = { t with completed := false }) := by
  obtain ⟨st, stime, sdow, sdom⟩ := sch
  simp only at ht
  subst ht
  have happ : shouldResetApp now ⟨"monthly", stime, sdow, sdom⟩ last = false := by
    rw [shouldResetApp_monthly_of "monthly" now last stime sdow sdom (by decide) (by decide)
      (by decide) (by decide) (by decide) (by decide) (by decide) (by decide)]
    simp [hlast]
  constructor
  · unfold checkTaskApp
    simp only [hs]
    rw [if_neg (by decide)]
    split
    · rfl
    · simp only [hl]
      rw [if_neg (by simp [happ])]
  · intro hdom hc
    have h000 : shouldReset000 now ⟨"monthly", stime, sdow, sdom⟩ last = true := by
      rw [shouldReset000_monthly_of "monthly" now last stime sdow sdom (by decide) (by decide)
        (by decide) (by decide) (by decide) (by decide)]
      simp only at hdom
      subst hdom
      simp [monthlyLegacyReset, hnow]
    unfold checkTask000
    simp only [hs, hl]
    rw [if_neg (by decide), if_neg (by simp [hc]), if_pos (by simp [h000])]

/-- Witness for C1 at the concrete March/February 2025 instants. -/
theorem C1_witness :
    checkTaskApp c1now c1task = c1task ∧
    checkTask000 c1now c1task = { c1task with completed := false } :=
  ⟨(C1_monthly_first_guard c1now c1last c1task _ rfl rfl rfl (by decide) (by decide)).1,
   (C1_monthly_first_guard c1now c1last c1task _ rfl rfl rfl (by decide) (by decide)).2
      rfl rfl⟩

/-- Concrete input for the weekly-threshold scenario: Friday 2025-06-27
at 09:00 UTC (weekday 5, hour 9). -/
def c2now : Nat := 20266 * 86400000 + 9 * 3600000

/-- A completed legacy `weekly` task targeting Friday, completed earlier
the same day. -/
def c2task : Task :=
  { id := "w", completed := true,
    schedule := some { type := "weekly", dayOfWeek := some 5 },
    lastCompletedAt := some (20266 * 86400000) }

/-- C2 counterexample: on the target day at exactly the (default)
threshold hour 9, the claim's predicate says "reset", but the legacy
`weekly` branch of `part_000` uses a strict comparison and does not
reset. -/
theorem C2_counterexample :
    getDay c2now = 5 ∧ getHours c2now = 9 ∧ parseTimeHour none = some 9 ∧
    specWeeklyReset (getDay c2now) (getHours c2now) 5 9 = true ∧
    shouldReset000 c2now { type := "weekly", dayOfWeek := some 5 }
      (20266 * 86400000) = false ∧
    checkAndResetTasks000 c2now [c2task] = [c2task] := by decide

/-- C2 (amended): with a parseable threshold hour, the named
`weekly_<day>` kinds of `src/App.tsx` reset iff `delta > 0` or
(`delta = 0` and hour `≥` threshold) — as the claim states — but the
legacy `weekly` branch of `part_000`/`part_001` uses the strict
comparison hour `>` threshold in the `delta = 0` case, so at exactly the
threshold hour it does not reset; moreover `src/App.tsx` has no branch at
all for the plain `weekly` kind, which therefore never resets there. -/
theorem C2_weekly_threshold (now last : Nat) (time : Option String) (dow dom : Option Nat)
    (hour : Nat) (hpt : parseTimeHour time = some hour) :
    (∀ k, k ∈ weeklyNamedKinds →
      shouldResetApp now ⟨k, time, dow, dom⟩ last =
        specWeeklyReset (getDay now) (getHours now) ((getDayFromType k).getD 0) hour) ∧
    (∀ k, k ∈ legacyWeeklyKinds → ∀ dw : Nat,
      shouldReset000 now ⟨k, time, some dw, dom⟩ last =
        strictWeeklyReset (getDay now) (getHours now) dw hour) ∧
    shouldResetApp now ⟨"weekly", time, dow, dom⟩ last = false := by
  refine ⟨?_, ?_, ?_⟩
  · intro k hk
    rw [shouldResetApp_weeklyNamed k hk, weeklyNamedReset_eq_spec _ _ _ _ _ hpt]
  · intro k hk dw
    rw [shouldReset000_weekly k hk, weeklyLegacyReset_eq_strict _ _ _ _ _ hpt]
  · exact shouldResetApp_else_of "weekly" now last time dow dom (by decide) (by decide)
      (by decide) (by decide) (by decide) (by decide) (by decide) (by decide) (by decide)
      (by decide) (by decide) (by decide) (by decide)

/-- Witness for C2 at the Friday-09:00 instant with the default time. -/
theorem C2_witness :
    shouldResetApp c2now ⟨"weekly_friday", none, none, none⟩ (20266 * 86400000) =
      specWeeklyReset (getDay c2now) (getHours c2now)
        ((getDayFromType "weekly_friday").getD 0) 9 ∧
    shouldReset000 c2now ⟨"weekly", none, some 5, none⟩ (20266 * 86400000) =
      strictWeeklyReset (getDay c2now) (getHours c2now) 5 9 :=
  ⟨(C2_weekly_threshold c2now (20266 * 86400000) none none none 9 rfl).1
      "weekly_friday" (by decide),
   (C2_weekly_threshold c2now (20266 * 86400000) none none none 9 rfl).2.1
      "weekly" (by decide) 5⟩

/-- A completed task with a recorded completion instant, used to show the
toggle action clearing `lastCompletedAt`. -/
def c3task : Task := { id := "a", completed := true, lastCompletedAt := some 100 }

/-- C3 counterexample: toggling a completed task away from completed
clears `lastCompletedAt` (sets it to `undefined`) instead of leaving its
previous value stamped. -/
theorem C3_counterexample :
    c3task.lastCompletedAt = some 100 ∧
    (toggleTask 200 [c3task] "a").map Task.lastCompletedAt = [none] ∧
    (toggleTask 200 [c3task] "a").map Task.completed = [false] := by decide

/-- C3 (amended): `toggleTask` on a matching task stamps
`lastCompletedAt` with the current instant on the transition to
completed, and clears it (sets it to `undefined`) on the transition away
from completed — it does not preserve the previous value. -/
theorem C3_toggle_clears (now : Nat) (t : Task) (id : String) (hid : t.id = id) :
    (t.completed = true →
      toggleTask now [t] id = [{ t with completed := false, lastCompletedAt := none }]) ∧
    (t.completed = false →
      toggleTask now [t] id = [{ t with completed := true, lastCompletedAt := some now }]) := by
  constructor <;> intro hc <;> simp [toggleTask, hid, hc]

/-- Witness for C3: both transitions at concrete inputs. -/
theorem C3_witness :
    toggleTask 200 [c3task] "a" =
      [{ c3task with completed := false, lastCompletedAt := none }] ∧
    toggleTask 300 [{ c3task with completed := false }] "a" =
      [{ c3task with completed := true, lastCompletedAt := some 300 }] :=
  ⟨(C3_toggle_clears 200 c3task "a" rfl).1 rfl,
   (C3_toggle_clears 300 { c3task with completed := false } "a" rfl).2 rfl⟩

/-- Evaluation instant for the C5 counterexample: 2025-06-28 UTC. -/
def c5now : Nat := 20267 * 86400000

/-- A completed task whose kind is the non-catalog string
`first_bogus_friday`, last completed 2025-02-01. -/
def c5task : Task :=
  { id := "x", completed := true,
    schedule := some { type := "first_bogus_friday" },
    lastCompletedAt := some (20120 * 86400000) }

/-- C5 counterexample: the non-catalog kind `first_bogus_friday` is not
returned unchanged — the `src/App.tsx` dispatch pattern-matches on the
`first_` prefix and the `friday` suffix and resets the task like a
`first_friday` rule. -/
theorem C5_counterexample :
    ("first_bogus_friday" ∉ schedulePresetIds) ∧
    checkAndResetTasksApp c5now [c5task] = [{ c5task with completed := false }] := by
  decide

/-- C5 (amended): a task with `schedule` absent, `schedule.kind = none`,
`completed = false`, or `lastCompletedAt` absent is returned unchanged by
all three evaluators for every `now`, and a kind matching no dispatch
pattern (such as `fortnightly_blah`) is likewise never reset; however,
non-catalog strings that do match a dispatch pattern (a recognised
prefix together with a weekday suffix, e.g. `first_bogus_friday`) are
treated like the corresponding catalog kind and may be reset. -/
theorem C5_noop_guards (now : Nat) (t : Task)
    (h : t.schedule = none ∨
      (∃ sch, t.schedule = some sch ∧
        (sch.type = "none" ∨ sch.type = "fortnightly_blah")) ∨
      t.completed = false ∨ t.lastCompletedAt = none) :
    checkTaskApp now t = t ∧ checkTask000 now t = t ∧ checkTask001 now t = t := by
  rcases h with h | ⟨sch, hs, hk⟩ | h | h
  · exact ⟨checkTaskApp_no_data now t (Or.inl h), checkTask000_no_data now t (Or.inl h),
      checkTask001_no_data now t (Or.inl h)⟩
  · obtain ⟨st, stime, sdow, sdom⟩ := sch
    simp only at hk
    rcases hk with hk | hk <;> subst hk
    · refine ⟨?_, ?_, ?_⟩
      · unfold checkTaskApp
        simp only [hs]
        rw [if_pos (by decide)]
      · unfold checkTask000
        simp only [hs]
        rw [if_pos (by decide)]
      · unfold checkTask001
        simp only [hs]
        rw [if_pos (by decide)]
    · have happ : ∀ last, shouldResetApp now ⟨"fortnightly_blah", stime, sdow, sdom⟩ last
          = false := fun last =>
        shouldResetApp_else_of _ now last stime sdow sdom (by decide) (by decide)
          (by decide) (by decide) (by decide) (by decide) (by decide) (by decide)
          (by decide) (by decide) (by decide) (by decide) (by decide)
      have h000 : ∀ last, shouldReset000 now ⟨"fortnightly_blah", stime, sdow, sdom⟩ last
          = false := fun last =>
        shouldReset000_else_of _ now last stime sdow sdom (by decide) (by decide)
          (by decide) (by decide) (by decide) (by decide) (by decide) (by decide)
          (by decide)
      have h001 : ∀ last, shouldReset001 now ⟨"fortnightly_blah", stime, sdow, sdom⟩ last
          = false := fun last =>
        shouldReset001_else_of _ now last stime sdow sdom (by decide) (by decide)
          (by decide) (by decide) (by decide) (by decide) (by decide)
      refine ⟨?_, ?_, ?_⟩
      · unfold checkTaskApp
        simp only [hs]
        rw [if_neg (by decide)]
        split
        · rfl
        · cases hl : t.lastCompletedAt with
          | none => simp [hl]
          | some last =>
            simp only [hl]
            rw [if_neg (by simp [happ last])]
      · unfold checkTask000
        simp only [hs]
        rw [if_neg (by decide)]
        split
        · rfl
        · cases hl : t.lastCompletedAt with
          | none => simp [hl]
          | some last =>
            simp only [hl]
            rw [if_neg (by simp [h000 last])]
      · unfold checkTask001
        simp only [hs]
        rw [if_neg (by decide)]
        split
        · rfl
        · cases hl : t.lastCompletedAt with
          | none => simp [hl]
          | some last =>
            simp only [hl]
            rw [if_neg (by simp [h001 last])]
  · exact ⟨checkTaskApp_not_completed now t h, checkTask000_not_completed now t h,
      checkTask001_not_completed now t h⟩
  · exact ⟨checkTaskApp_no_data now t (Or.inr h), checkTask000_no_data now t (Or.inr h),
      checkTask001_no_data now t (Or.inr h)⟩

/-- Witness for C5: a completed `fortnightly_blah` task is unchanged by
all three evaluators at a concrete instant. -/
theorem C5_witness :
    checkTaskApp 123456789
        { id := "n", completed := true,
          schedule := some { type := "fortnightly_blah" },
          lastCompletedAt := some 0 } =
      { id := "n", completed := true,
        schedule := some { type := "fortnightly_blah" },
        lastCompletedAt := some 0 } ∧
    checkTask000 123456789
        { id := "n", completed := true,
          schedule := some { type := "fortnightly_blah" },
          lastCompletedAt := some 0 } =
      { id := "n", completed := true,
        schedule := some { type := "fortnightly_blah" },
        lastCompletedAt := some 0 } ∧
    checkTask001 123456789
        { id := "n", completed := true,
          schedule := some { type := "fortnightly_blah" },
          lastCompletedAt := some 0 } =
      { id := "n", completed := true,
        schedule := some { type := "fortnightly_blah" },
        lastCompletedAt := some 0 } :=
  C5_noop_guards 123456789 _ (Or.inr (Or.inl ⟨_, rfl, Or.inr rfl⟩))

/-- Evaluation instant for the C8 counterexample: Saturday 2025-06-28. -/
def c8now : Nat := 20267 * 86400000

/-- Last completion for the C8 counterexample: Friday 2025-06-27 — the
last Friday of June 2025 (June 2025 has only four Fridays). -/
def c8last : Nat := 20266 * 86400000

/-- A completed `last_friday` task completed on the last Friday of the
current month. -/
def c8task : Task :=
  { id := "lf", completed := true,
    schedule := some { type := "last_friday" },
    lastCompletedAt := some c8last }

/-- C8 counterexample: for `last_friday` in June 2025, the spec's rule
(backward walk for the last-completed month as well) says a task
completed on the last Friday, June 27, must not be reset on June 28 —
but the `src/App.tsx` evaluator resets it, because it computes the
last-completed month's occurrence date as `firstOccurrence + 4·7 = 34`
instead of walking backward. -/
theorem C8_counterexample :
    specLastWeekdayDate 2025 5 5 = 27 ∧
    getDate c8last = 27 ∧ getMonth c8last = 5 ∧ getFullYear c8last = 2025 ∧
    getDate c8now = 28 ∧ getMonth c8now = 5 ∧ getFullYear c8now = 2025 ∧
    specNthReset c8now c8last 5 5 = false ∧
    checkAndResetTasksApp c8now [c8task] = [{ c8task with completed := false }] := by
  decide

/-- C8 (amended): for every Nth-weekday kind, a completed task with
`lastCompletedAt` present is reset iff today is on or after the Nth (or,
for `last_*`, the backward-walk) occurrence date of the current month,
and either the last-completed month/year differs from the current one or
the last-completed date is strictly before
`firstOccurrence + (N − 1) · 7` computed for its own month — where for
`last_*` kinds `N − 1 = 4`; the backward walk is used only for the
current month's target, not for the last-completed month's. -/
theorem C8_nth_amended (k : String) (hk : k ∈ nthWeekdayKinds) (now last : Nat)
    (time : Option String) (dow dom : Option Nat) :
    shouldResetApp now ⟨k, time, dow, dom⟩ last =
      amendedNthReset now last ((getDayFromType k).getD 0) ((getOccurrence k).getD 0) := by
  rw [shouldResetApp_nth k hk]
  exact nthWeekdayReset_eq_amended _ _ _ _ _ _ _ _ (nthKinds_day_le k hk)

/-- Witness for C8 at the `last_friday` June 2025 instants. -/
theorem C8_witness :
    ("last_friday" ∈ nthWeekdayKinds) ∧
    shouldResetApp c8now ⟨"last_friday", none, none, none⟩ c8last =
      amendedNthReset c8now c8last ((getDayFromType "last_friday").getD 0)
        ((getOccurrence "last_friday").getD 0) :=
  ⟨by decide, C8_nth_amended "last_friday" (by decide) c8now c8last none none none⟩

end CleanTasks
